import Mathlib

/-!
Shallow embedding of `manage-project-storage.py` (hpcbursarcli), the
storage-quota reconciliation engine, together with proofs about the
properties claimed of it.

Two levels of embedding are used:
* a process level (`execute`, `check_quota_run`, `code_set_quota`,
  `code_set_project`) that models each function wrapping the external
  `lfs` tool, with the environment's behaviour given as a function from
  the command line to the process result; Python functions that can
  raise are embedded in `Except`, and a function that completes normally
  is `Except.ok`;
* a reconciliation level (`FsState`, `sync_group`, `synchronize_storage`)
  where the filesystem and the quota database are explicit state, the
  quota query is a state lookup, and every external effect is recorded
  as an `Action`.  `none` models a Python exception aborting the run.
Quotas are tracked in whole gigabytes: `set_quota` writes
`capacity * 1024 * 1024` kB and `check_quota` reads the kB figure back
as `int(kb / 1024 / 1024)`, which is exact on every value the program
itself writes.
-/

namespace HpcBursar

/-- Constant `PROJECT_BASE` of manage-project-storage.py. -/
def PROJECT_BASE : String := "/net/pr2/projects/plgrid/"

/-- Constant `PROJECT_FS` of manage-project-storage.py. -/
def PROJECT_FS : String := "/net/pr2/"

/-- Constant `LFS_PATH` of manage-project-storage.py. -/
def LFS_PATH : String := "/usr/bin/lfs"

/-- One entry of a grant's `allocations` list: a resource identifier and a
`parameters` dict, modelled as an association list from parameter name to
integer value. -/
structure Allocation where
  resource : String
  parameters : List (String × Int)
deriving DecidableEq

/-- A grant record as delivered by the bursar service.  `allocations` is
optional because `sum_storage` explicitly tests `'allocations' in
grant.keys()`; the other keys are accessed unconditionally. -/
structure Grant where
  name : String
  status : String
  group : String
  allocations : Option (List Allocation)
deriving DecidableEq

/-- The inner loop of `sum_storage` over one grant's `allocations`: every
allocation with `resource == 'storage'` contributes
`allocation['parameters']['capacity']`.  A missing `capacity` key is a
Python `KeyError`, modelled as `none`.  The running total is associated to
the right here; the value is the same as the source's left-to-right
accumulation. -/
def sum_allocations : List Allocation → Option Int
  | [] => some 0
  | a :: rest =>
    if a.resource = "storage" then
      match a.parameters.lookup "capacity" with
      | none => none
      | some c => (sum_allocations rest).map (fun s => c + s)
    else sum_allocations rest

/-- `sum_storage(grants)` (manage-project-storage.py lines 94-101): the sum
of the `capacity` parameter over every storage allocation of every grant in
the list; a grant without an `allocations` key contributes nothing; a
storage allocation without a `capacity` key raises (`none`). -/
def sum_storage : List Grant → Option Int
  | [] => some 0
  | g :: rest =>
    match g.allocations with
    | none => sum_storage rest
    | some allocs =>
      match sum_allocations allocs with
      | none => none
      | some c => (sum_storage rest).map (fun s => c + s)

/-- `is_grant_active(grant)` (lines 156-163): Python's
`'accepted' in grant['status'] or 'active' in grant['status']`, i.e.
substring containment of either marker in the status string. -/
def is_grant_active (grant : Grant) : Bool :=
  decide ("accepted".toList <:+: grant.status.toList)
    || decide ("active".toList <:+: grant.status.toList)

/-- The first loop of `main` (lines 178-179): `group_grants[group['name']] = []`
for every group name, in order.  Re-assigning an existing key rewrites its
(still empty) value, so keeping the first entry is equivalent. -/
def init_groups (groups : List String) : List (String × List Grant) :=
  groups.foldl
    (fun d name => if (d.lookup name).isSome then d else d ++ [(name, [])]) []

/-- One step of the second loop of `main` (lines 180-187): inactive grants
are skipped, a grant whose group has a dict entry is appended to it, and a
grant whose group is unknown is only logged. -/
def add_grant (d : List (String × List Grant)) (grant : Grant) :
    List (String × List Grant) :=
  if is_grant_active grant then
    if (d.lookup grant.group).isSome then
      d.map (fun p => if p.1 = grant.group then (p.1, p.2 ++ [grant]) else p)
    else d
  else d

/-- The `group_grants` dict that `main` hands to `synchronize_storage`,
modelled as an association list in dict insertion order. -/
def build_group_grants (groups : List String) (grants : List Grant) :
    List (String × List Grant) :=
  grants.foldl add_grant (init_groups groups)

/-- Lines 135-137 of `synchronize_storage`: the computed capacity is floored
to 1 (`if capacity < 1: capacity = 1`). -/
def applied_capacity (capacity : Int) : Int :=
  if capacity < 1 then 1 else capacity

/-! ### Reconciliation-level state model -/

/-- The filesystem / quota state mutated by `synchronize_storage`: the set
of existing directories (full paths) and the per-gid project quota in GB
(`lfs` keeps kilobytes; the GB view is exact for all values the program
writes, see the header). -/
structure FsState where
  dirs : List String
  quotas : List (Nat × Int)
deriving DecidableEq

/-- One external effect of the reconciliation of a group.  `queryQuota`,
`setQuota` and `setProject` are `lfs` invocations; `mkdir`, `chmod` and
`chown` are direct filesystem calls. -/
inductive Action where
  | queryQuota (gid : Nat)
  | setQuota (gid : Nat) (capacity : Int)
  | mkdir (path : String)
  | chmod (path : String)
  | chown (path : String) (gid : Nat)
  | setProject (path : String) (gid : Nat)
deriving DecidableEq

/-- `check_quota(gid)` at the state level: the current quota of `gid`, or
`None` when the group has no quota entry. -/
def check_quota_state (st : FsState) (gid : Nat) : Option Int :=
  st.quotas.lookup gid

/-- `set_quota(gid, quota)` at the state level. -/
def set_quota_state (st : FsState) (gid : Nat) (capacity : Int) : FsState :=
  { st with quotas := (gid, capacity) :: st.quotas }

/-- The body of the `for group, grants in group_grants.items()` loop of
`synchronize_storage` (lines 135-153) after the gid has been resolved:
compute the capacity, floor it, then either correct the quota of an
existing directory or provision a fresh one.  `none` models the
`KeyError` from `sum_storage` aborting the run. -/
def sync_group (st : FsState) (group : String) (gid : Nat)
    (grants : List Grant) : Option (FsState × List Action) :=
  match sum_storage grants with
  | none => none
  | some s =>
    let capacity := applied_capacity s
    let group_dir_path := PROJECT_BASE ++ group
    if group_dir_path ∈ st.dirs then
      if check_quota_state st gid ≠ some capacity then
        some (set_quota_state st gid capacity,
          [Action.queryQuota gid, Action.setQuota gid capacity])
      else
        some (st, [Action.queryQuota gid])
    else
      some (set_quota_state { st with dirs := st.dirs ++ [group_dir_path] }
              gid capacity,
        [Action.mkdir group_dir_path, Action.chmod group_dir_path,
         Action.chown group_dir_path gid,
         Action.setProject group_dir_path gid,
         Action.setQuota gid capacity])

/-- The per-group result recorded by a run: either the group was absent
from the OS group database (only a debug line is printed, no effect), or it
was reconciled with the recorded list of effects. -/
inductive Outcome where
  | groupNotFound
  | reconciled (acts : List Action)
deriving DecidableEq

/-- `synchronize_storage(group_grants)` (lines 125-153): the system group
database is abstracted as `gid_map` (the `system_groups_gid` dict); groups
are processed sequentially in dict order, an unknown group is skipped, and
an exception (`none`) aborts the whole loop. -/
def synchronize_storage (gid_map : String → Option Nat)
    (group_grants : List (String × List Grant)) (st : FsState) :
    Option (FsState × List (String × Outcome)) :=
  match group_grants with
  | [] => some (st, [])
  | (group, grants) :: rest =>
    match gid_map group with
    | none =>
      (synchronize_storage gid_map rest st).map
        (fun r => (r.1, (group, Outcome.groupNotFound) :: r.2))
    | some gid =>
      match sync_group st group gid grants with
      | none => none
      | some (st', acts) =>
        (synchronize_storage gid_map rest st').map
          (fun r => (r.1, (group, Outcome.reconciled acts) :: r.2))

/-- Recognizes a `setQuota` effect. -/
def is_set_quota (a : Action) : Bool :=
  match a with
  | Action.setQuota _ _ => true
  | _ => false

/-- Recognizes an invocation of the external `lfs` tool. -/
def is_tool_invocation (a : Action) : Bool :=
  match a with
  | Action.queryQuota _ => true
  | Action.setQuota _ _ => true
  | Action.setProject _ _ => true
  | _ => false

/-- Number of `setQuota` calls in an action list. -/
def count_set_quota (acts : List Action) : Nat :=
  (acts.filter is_set_quota).length

/-- Number of `setQuota` calls recorded in one outcome. -/
def outcome_set_quota (o : Outcome) : Nat :=
  match o with
  | Outcome.groupNotFound => 0
  | Outcome.reconciled acts => count_set_quota acts

/-- Total number of `setQuota` calls of a whole run. -/
def total_set_quota (os : List (String × Outcome)) : Nat :=
  (os.map (fun p => outcome_set_quota p.2)).sum

/-! ### Process-level model of the quota tool wrappers -/

/-- The `subprocess.CompletedProcess` fields that `execute` reads. -/
structure CmdResult where
  returncode : Int
  stdout : String
  stderr : String
deriving DecidableEq

/-- `execute(cmd)` (lines 86-91): run the command (the behaviour of the
external world is the function `env`) and hand back the triple
`(returncode, stdout, stderr)`.  `subprocess.run` without `check=True`
raises nothing on a non-zero exit status. -/
def execute (env : List String → CmdResult) (cmd : List String) :
    Int × String × String :=
  let cp := env cmd
  (cp.returncode, cp.stdout, cp.stderr)

/-- The command line built by `check_quota` (line 105). -/
def check_quota_cmd (gid : Nat) : List String :=
  [LFS_PATH, "quota", "-p", toString gid, PROJECT_FS]

/-- The command line built by `set_quota` (lines 115-116). -/
def set_quota_cmd (gid : Nat) (quota : Int) : List String :=
  [LFS_PATH, "setquota", "-p", toString gid, "-B",
   toString (quota * 1024 * 1024), PROJECT_FS]

/-- The command line built by `set_project` (line 121). -/
def set_project_cmd (path : String) (gid : Nat) : List String :=
  [LFS_PATH, "project", "-p", toString gid, "-s", "-r", path]

/-- Python's `PROJECT_FS in line` test of `check_quota`. -/
def line_matches (line : String) : Bool :=
  decide (PROJECT_FS.toList <:+: line.toList)

/-- Lines 109-111 of `check_quota` on one matching output line:
`line.split()` (whitespace split dropping empty fields), `parts[3]`
(`none` models the `IndexError`), `int(parts[3])` (`none` models the
`ValueError`), and `int(kb / 1024 / 1024)` which truncates toward zero
(`Int.tdiv`). -/
def parse_quota_line (line : String) : Option Int :=
  let parts := (line.split Char.isWhitespace).filter (fun s => s ≠ "")
  match parts[3]? with
  | none => none
  | some p =>
    match p.toInt? with
    | none => none
    | some kb => some (Int.tdiv (Int.tdiv kb 1024) 1024)

/-- The loop of `check_quota` over `stdout.split('\n')`: the first line
containing `PROJECT_FS` is parsed and returned; if no line matches the
function falls through and returns `None`.  The outer `Option` is the
exception channel (a matching line that fails to parse raises), the inner
one is `check_quota`'s own `Option`al result. -/
def check_quota_parse (stdout : String) : Option (Option Int) :=
  match (stdout.splitOn "\n").find? line_matches with
  | none => some none
  | some line => (parse_quota_line line).map some

/-- `check_quota(gid)` (lines 104-111) at the process level: the exit
status of the tool is never consulted, only `stdout` is parsed. -/
def check_quota_run (env : List String → CmdResult) (gid : Nat) :
    Option (Option Int) :=
  match execute env (check_quota_cmd gid) with
  | (_, stdout, _) => check_quota_parse stdout

/-- The error kind the specification demands for a failed quota tool
invocation: the command, the exit code and the captured stderr. -/
inductive QuotaToolError where
  | toolFailed (cmd : List String) (exitCode : Int) (stderr : String)
deriving DecidableEq

/-- `set_quota(gid, quota)` (lines 114-117) embedded in the error monad:
the function calls `execute`, discards the returned triple and completes
normally whatever the exit status was. -/
def code_set_quota (env : List String → CmdResult) (gid : Nat)
    (quota : Int) : Except QuotaToolError Unit :=
  let _ := execute env (set_quota_cmd gid quota)
  Except.ok ()

/-- `set_project(path, gid)` (lines 120-122) embedded in the error monad:
as with `code_set_quota`, the result of `execute` is discarded. -/
def code_set_project (env : List String → CmdResult) (path : String)
    (gid : Nat) : Except QuotaToolError Unit :=
  let _ := execute env (set_project_cmd path gid)
  Except.ok ()

/-- The behaviour §4.4 of the specification demands of `set_quota`: a
non-zero exit status is surfaced as a `QuotaToolError` carrying the
command, the exit code and the captured stderr. -/
def spec_set_quota (env : List String → CmdResult) (gid : Nat)
    (quota : Int) : Except QuotaToolError Unit :=
  let cmd := set_quota_cmd gid quota
  let cp := env cmd
  if cp.returncode ≠ 0 then
    Except.error (QuotaToolError.toolFailed cmd cp.returncode cp.stderr)
  else Except.ok ()

/-! ### Data fetching and `main` -/

/-- The payload of `admin/grants_group_info`: `data['groups']` (only the
`name` field is read) and `data['grants']`. -/
structure BursarData where
  groups : List String
  grants : List Grant
deriving DecidableEq

/-- The three failure modes of `get_data` (lines 68-83), each raised as a
bare `Exception` in the source. -/
inductive DataError where
  | unauthorized
  | invalidResponse
  | parseFailure
deriving DecidableEq

/-- `get_data()` (lines 68-83): a 403 response and any other non-200
response raise before the body is parsed; a body that fails to decode as
JSON raises as well. -/
def get_data (status_code : Nat) (parsed : Option BursarData) :
    Except DataError BursarData :=
  if status_code = 403 then Except.error DataError.unauthorized
  else if status_code ≠ 200 then Except.error DataError.invalidResponse
  else
    match parsed with
    | some d => Except.ok d
    | none => Except.error DataError.parseFailure

/-- `main()` (lines 166-189) without the argument handling: fetch the data
(an error here propagates and aborts the process before anything else
runs), build `group_grants`, then synchronize. -/
def main_run (status_code : Nat) (parsed : Option BursarData)
    (gid_map : String → Option Nat) (st : FsState) :
    Except DataError (Option (FsState × List (String × Outcome))) :=
  match get_data status_code parsed with
  | Except.error e => Except.error e
  | Except.ok data =>
    Except.ok (synchronize_storage gid_map
      (build_group_grants data.groups data.grants) st)

/-! ### Specification-side aggregation (for the refinement claims) -/

/-- The storage capacity carried by one grant: the sum of the `capacity`
parameter over its storage allocations (a grant without an `allocations`
key carries 0). -/
def grant_storage_sum (g : Grant) : Option Int :=
  match g.allocations with
  | none => some 0
  | some allocs => sum_allocations allocs

/-- Spec-side capacity of §4.1: the sum of the `capacity` parameter of
every storage allocation across exactly the active grants belonging to
the group `n`; a grant that is not active contributes nothing. -/
def spec_group_capacity (grants : List Grant) (n : String) : Option Int :=
  match grants with
  | [] => some 0
  | g :: rest =>
    if is_grant_active g && g.group == n then
      match grant_storage_sum g, spec_group_capacity rest n with
      | some a, some b => some (a + b)
      | _, _ => none
    else spec_group_capacity rest n

/-! ### Lemmas about the grouping dict -/

theorem lookup_map_append (d : List (String × List Grant)) (k n : String)
    (grant : Grant) :
    (d.map (fun p => if p.1 = k then (p.1, p.2 ++ [grant]) else p)).lookup n
      = if n = k then (d.lookup n).map (fun l => l ++ [grant])
        else d.lookup n := by
  induction d with
  | nil => simp
  | cons p rest ih =>
    obtain ⟨pk, pv⟩ := p
    simp only [List.map_cons]
    by_cases hpk : pk = k
    · subst hpk
      rw [show (if (pk, pv).1 = pk then ((pk, pv).1, (pk, pv).2 ++ [grant])
            else (pk, pv)) = (pk, pv ++ [grant]) by simp]
      by_cases hnp : n = pk
      · have hb : (n == pk) = true := beq_iff_eq.mpr hnp
        simp [List.lookup_cons, hb, if_pos hnp]
      · have hb : (n == pk) = false := beq_eq_false_iff_ne.mpr hnp
        simp only [List.lookup_cons, hb]
        rw [ih, if_neg hnp]
    · rw [show (if (pk, pv).1 = k then ((pk, pv).1, (pk, pv).2 ++ [grant])
            else (pk, pv)) = (pk, pv) by simp [hpk]]
      by_cases hnp : n = pk
      · have hb : (n == pk) = true := beq_iff_eq.mpr hnp
        have hnk : ¬ n = k := fun h => hpk (hnp ▸ h)
        simp [List.lookup_cons, hb, hnk]
      · have hb : (n == pk) = false := beq_eq_false_iff_ne.mpr hnp
        simp only [List.lookup_cons, hb]
        exact ih

theorem lookup_append_single (d : List (String × List Grant))
    (name n : String) :
    (d ++ [(name, [])]).lookup n
      = if (d.lookup n).isSome then d.lookup n
        else if n = name then some [] else none := by
  induction d with
  | nil =>
    by_cases hn : n = name
    · have hb : (n == name) = true := beq_iff_eq.mpr hn
      simp [List.lookup_cons, hb, hn]
    · have hb : (n == name) = false := beq_eq_false_iff_ne.mpr hn
      simp [List.lookup_cons, hb, hn]
  | cons p rest ih =>
    obtain ⟨pk, pv⟩ := p
    by_cases hnp : n = pk
    · have hb : (n == pk) = true := beq_iff_eq.mpr hnp
      simp [List.lookup_cons, hb]
    · have hb : (n == pk) = false := beq_eq_false_iff_ne.mpr hnp
      simp only [List.cons_append, List.lookup_cons, hb]
      exact ih

theorem init_groups_lookup (groups : List String) (n : String) :
    (init_groups groups).lookup n
      = if n ∈ groups then some [] else none := by
  suffices h : ∀ d : List (String × List Grant),
      (groups.foldl
        (fun d name =>
          if (d.lookup name).isSome then d else d ++ [(name, [])]) d).lookup n
        = if (d.lookup n).isSome then d.lookup n
          else if n ∈ groups then some [] else none by
    simpa [init_groups] using h []
  induction groups with
  | nil =>
    intro d
    cases h : d.lookup n <;> simp [h]
  | cons g rest ih =>
    intro d
    simp only [List.foldl_cons]
    by_cases hg : (d.lookup g).isSome
    · rw [if_pos hg, ih d]
      by_cases hn : (d.lookup n).isSome
      · simp [hn]
      · simp only [if_neg hn]
        by_cases hng : n = g
        · rw [← hng] at hg; exact absurd hg hn
        · simp [List.mem_cons, hng]
    · rw [if_neg hg, ih (d ++ [(g, [])])]
      rw [lookup_append_single]
      by_cases hn : (d.lookup n).isSome
      · simp [hn]
      · simp only [if_neg hn]
        by_cases hng : n = g
        · simp [hng]
        · simp [hng, List.mem_cons]

theorem build_group_grants_lookup (groups : List String)
    (grants : List Grant) (n : String) :
    (build_group_grants groups grants).lookup n
      = if n ∈ groups then
          some (grants.filter (fun g => is_grant_active g && g.group == n))
        else none := by
  suffices h : ∀ d : List (String × List Grant),
      (grants.foldl add_grant d).lookup n
        = (d.lookup n).map
            (fun l =>
              l ++ grants.filter (fun g => is_grant_active g && g.group == n)) by
    rw [build_group_grants, h (init_groups groups), init_groups_lookup]
    by_cases hn : n ∈ groups <;> simp [hn]
  induction grants with
  | nil => intro d; cases h : d.lookup n <;> simp [h]
  | cons g rest ih =>
    intro d
    simp only [List.foldl_cons, List.filter_cons]
    by_cases hact : is_grant_active g
    · by_cases hgrp : (d.lookup g.group).isSome
      · rw [show add_grant d g
            = d.map (fun p =>
                if p.1 = g.group then (p.1, p.2 ++ [g]) else p) by
            simp [add_grant, hact, hgrp]]
        rw [ih, lookup_map_append]
        by_cases hng : n = g.group
        · have hgn : (g.group == n) = true := by simpa using hng.symm
          simp only [hact, hgn, Bool.and_self, if_pos, if_pos hng]
          cases h : d.lookup n <;> simp [h]
        · have hgn : (g.group == n) = false := by
            simpa using fun h => hng h.symm
          simp only [hact, hgn, Bool.and_false, if_neg hng]
          simp
      · rw [show add_grant d g = d by simp [add_grant, hact, hgrp]]
        rw [ih]
        by_cases hng : n = g.group
        · have hnone : d.lookup n = none := by
            rw [hng]
            cases h : d.lookup g.group with
            | none => rfl
            | some l => rw [h] at hgrp; exact absurd rfl hgrp
          simp [hnone]
        · have : (g.group == n) = false := by
            simpa using fun h => hng h.symm
          simp [hact, this]
    · rw [show add_grant d g = d by simp [add_grant, hact]]
      rw [ih]
      have : (is_grant_active g && g.group == n) = false := by
        simp [hact]
      simp [this]


/-! ### Lemmas about the capacity sums -/

theorem sum_storage_cons (g : Grant) (l : List Grant) :
    sum_storage (g :: l)
      = match grant_storage_sum g, sum_storage l with
        | some a, some b => some (a + b)
        | _, _ => none := by
  rw [sum_storage, grant_storage_sum]
  cases g.allocations with
  | none => cases h : sum_storage l <;> simp [h]
  | some allocs =>
    cases ha : sum_allocations allocs with
    | none => simp [ha]
    | some c => cases h : sum_storage l <;> simp [ha, h]

theorem sum_storage_filter_spec (grants : List Grant) (n : String) :
    sum_storage (grants.filter (fun g => is_grant_active g && g.group == n))
      = spec_group_capacity grants n := by
  induction grants with
  | nil => rfl
  | cons g rest ih =>
    rw [List.filter_cons, spec_group_capacity]
    by_cases hp : (is_grant_active g && g.group == n) = true
    · rw [if_pos hp, if_pos hp, sum_storage_cons, ih]
    · rw [if_neg (by simpa using hp)]
      rw [if_neg (by simpa using hp)]
      exact ih

/-! ### Example data (from §8 of the specification) -/

/-- An active grant of teamA with a 50 GB storage allocation. -/
def exGrantActive : Grant :=
  { name := "g1", status := "active", group := "teamA",
    allocations := some [{ resource := "storage",
                           parameters := [("capacity", 50)] }] }

/-- An expired grant of teamA with a 999 GB storage allocation. -/
def exGrantExpired : Grant :=
  { name := "g2", status := "expired", group := "teamA",
    allocations := some [{ resource := "storage",
                           parameters := [("capacity", 999)] }] }

/-- The grant list of the §8 example. -/
def exGrants : List Grant := [exGrantActive, exGrantExpired]

/-! ### The claims -/

/-- Claim C1: the desired storage capacity computed for a group is the sum
of the `capacity` parameter over every storage allocation across exactly
the active grants belonging to that group; grants whose status is not
recognized as active contribute nothing.  Concretely: the bucket that
`main` builds for a group name occurring in the data is precisely the
active grants of that group in order, and `sum_storage` of that bucket
equals the spec-side per-group capacity sum. -/
theorem capacity_is_sum_over_active_storage (groups : List String)
    (grants : List Grant) (n : String) (hmem : n ∈ groups) :
    (build_group_grants groups grants).lookup n
      = some (grants.filter (fun g => is_grant_active g && g.group == n)) ∧
    sum_storage (grants.filter (fun g => is_grant_active g && g.group == n))
      = spec_group_capacity grants n := by
  refine ⟨?_, sum_storage_filter_spec grants n⟩
  rw [build_group_grants_lookup, if_pos hmem]

/-- Witness for C1 on the §8 example: the expired grant is ignored and
teamA's desired capacity is 50. -/
theorem capacity_is_sum_over_active_storage_witness :
    ((build_group_grants ["teamA"] exGrants).lookup "teamA"
       = some (exGrants.filter
           (fun g => is_grant_active g && g.group == "teamA")) ∧
     sum_storage (exGrants.filter
         (fun g => is_grant_active g && g.group == "teamA"))
       = spec_group_capacity exGrants "teamA") ∧
    spec_group_capacity exGrants "teamA" = some 50 :=
  ⟨capacity_is_sum_over_active_storage ["teamA"] exGrants "teamA"
     (by decide),
   by decide⟩

/-! ### Lemmas about the state-level quota operations -/

theorem check_quota_set_self (st : FsState) (gid : Nat) (c : Int) :
    check_quota_state (set_quota_state st gid c) gid = some c := by
  simp [check_quota_state, set_quota_state, List.lookup_cons]

theorem check_quota_set_other (st : FsState) (gid gid' : Nat) (c : Int)
    (h : gid' ≠ gid) :
    check_quota_state (set_quota_state st gid c) gid'
      = check_quota_state st gid' := by
  have hb : (gid' == gid) = false := beq_eq_false_iff_ne.mpr h
  simp [check_quota_state, set_quota_state, List.lookup_cons, hb]

/-- Postcondition of one reconciled group: `sum_storage` succeeded, the
project directory exists afterwards, the gid's quota equals the applied
capacity afterwards, directories only grow, and no other gid's quota is
touched. -/
theorem sync_group_post (st st' : FsState) (group : String) (gid : Nat)
    (grants : List Grant) (acts : List Action)
    (h : sync_group st group gid grants = some (st', acts)) :
    ∃ s, sum_storage grants = some s ∧
      (PROJECT_BASE ++ group) ∈ st'.dirs ∧
      check_quota_state st' gid = some (applied_capacity s) ∧
      (∀ p, p ∈ st.dirs → p ∈ st'.dirs) ∧
      (∀ gid', gid' ≠ gid →
        check_quota_state st' gid' = check_quota_state st gid') := by
  unfold sync_group at h
  cases hs : sum_storage grants with
  | none => rw [hs] at h; exact absurd h (by simp)
  | some s =>
    rw [hs] at h
    simp only [] at h
    refine ⟨s, rfl, ?_⟩
    by_cases hdir : (PROJECT_BASE ++ group) ∈ st.dirs
    · rw [if_pos hdir] at h
      by_cases hne : check_quota_state st gid ≠ some (applied_capacity s)
      · rw [if_pos hne] at h
        rw [Option.some.injEq, Prod.mk.injEq] at h
        obtain ⟨hst, -⟩ := h
        subst hst
        refine ⟨hdir, check_quota_set_self st gid _, ?_, ?_⟩
        · intro p hp; exact hp
        · intro gid' hg; exact check_quota_set_other st gid gid' _ hg
      · rw [if_neg hne] at h
        rw [Option.some.injEq, Prod.mk.injEq] at h
        obtain ⟨hst, -⟩ := h
        subst hst
        refine ⟨hdir, not_ne_iff.mp hne, ?_, ?_⟩
        · intro p hp; exact hp
        · intro gid' _; rfl
    · rw [if_neg hdir] at h
      rw [Option.some.injEq, Prod.mk.injEq] at h
      obtain ⟨hst, -⟩ := h
      subst hst
      refine ⟨?_, check_quota_set_self _ gid _, ?_, ?_⟩
      · simp [set_quota_state]
      · intro p hp; simp [set_quota_state]; exact Or.inl hp
      · intro gid' hg
        exact check_quota_set_other _ gid gid' _ hg

/-- A group whose directory exists and whose quota already equals the
applied capacity only performs the quota query: the state is unchanged
and no `setQuota` is issued. -/
theorem sync_group_steady (st : FsState) (group : String) (gid : Nat)
    (grants : List Grant) (s : Int)
    (hsum : sum_storage grants = some s)
    (hdir : (PROJECT_BASE ++ group) ∈ st.dirs)
    (hq : check_quota_state st gid = some (applied_capacity s)) :
    sync_group st group gid grants = some (st, [Action.queryQuota gid]) := by
  unfold sync_group
  rw [hsum]
  simp only []
  rw [if_pos hdir, if_neg (by simp [hq])]

/-- Frame property of a run: directories only grow, and the quota of a gid
that no processed group resolves to is untouched. -/
theorem run_frame (gid_map : String → Option Nat)
    (ggs : List (String × List Grant)) :
    ∀ st st₁ os, synchronize_storage gid_map ggs st = some (st₁, os) →
      (∀ p, p ∈ st.dirs → p ∈ st₁.dirs) ∧
      (∀ gid, (∀ q ∈ ggs, gid_map q.1 ≠ some gid) →
        check_quota_state st₁ gid = check_quota_state st gid) := by
  induction ggs with
  | nil =>
    intro st st₁ os h
    rw [synchronize_storage, Option.some.injEq, Prod.mk.injEq] at h
    obtain ⟨hst, -⟩ := h
    subst hst
    exact ⟨fun p hp => hp, fun gid _ => rfl⟩
  | cons q rest ih =>
    intro st st₁ os h
    obtain ⟨group, grants⟩ := q
    rw [synchronize_storage] at h
    cases hg : gid_map group with
    | none =>
      rw [hg] at h
      simp only [] at h
      cases hrest : synchronize_storage gid_map rest st with
      | none => rw [hrest] at h; exact absurd h (by simp)
      | some r =>
        obtain ⟨st₂, os₂⟩ := r
        rw [hrest] at h
        simp only [Option.map_some', Option.some.injEq, Prod.mk.injEq] at h
        obtain ⟨hst, -⟩ := h
        subst hst
        obtain ⟨hd, hq⟩ := ih st st₂ os₂ hrest
        refine ⟨hd, fun gid hnot => hq gid ?_⟩
        intro q hql
        exact hnot q (List.mem_cons_of_mem _ hql)
    | some gid₀ =>
      rw [hg] at h
      simp only [] at h
      cases hsg : sync_group st group gid₀ grants with
      | none => rw [hsg] at h; exact absurd h (by simp)
      | some r =>
        obtain ⟨st', acts⟩ := r
        rw [hsg] at h
        simp only [] at h
        cases hrest : synchronize_storage gid_map rest st' with
        | none => rw [hrest] at h; exact absurd h (by simp)
        | some r₂ =>
          obtain ⟨st₂, os₂⟩ := r₂
          rw [hrest] at h
          simp only [Option.map_some', Option.some.injEq, Prod.mk.injEq] at h
          obtain ⟨hst, -⟩ := h
          subst hst
          obtain ⟨-, -, -, hmono, hother⟩ :=
            (sync_group_post st st' group gid₀ grants acts hsg).choose_spec
          obtain ⟨hd₂, hq₂⟩ := ih st' st₂ os₂ hrest
          constructor
          · intro p hp
            exact hd₂ p (hmono p hp)
          · intro gid hnot
            have hne : gid ≠ gid₀ := by
              intro e
              exact hnot (group, grants) (List.mem_cons_self _ _) (e ▸ hg)
            rw [hq₂ gid (fun q hql => hnot q (List.mem_cons_of_mem _ hql))]
            exact hother gid hne

/-- After a successful run, every group that resolved to a gid has its
directory present and its quota equal to its applied capacity (gid
injectivity and distinct dict keys ensure later groups do not clobber
it). -/
theorem run_done (gid_map : String → Option Nat)
    (hinj : ∀ g₁ g₂ gid, gid_map g₁ = some gid → gid_map g₂ = some gid →
      g₁ = g₂) :
    ∀ ggs : List (String × List Grant), ∀ st st₁ os,
      (ggs.map Prod.fst).Nodup →
      synchronize_storage gid_map ggs st = some (st₁, os) →
      ∀ q ∈ ggs, ∀ gid, gid_map q.1 = some gid →
        ∃ s, sum_storage q.2 = some s ∧
          (PROJECT_BASE ++ q.1) ∈ st₁.dirs ∧
          check_quota_state st₁ gid = some (applied_capacity s) := by
  intro ggs
  induction ggs with
  | nil => intro st st₁ os _ _ q hq; exact absurd hq (by simp)
  | cons p rest ih =>
    intro st st₁ os hnd h q hq gid hgid
    obtain ⟨group, grants⟩ := p
    rw [synchronize_storage] at h
    rw [List.map_cons, List.nodup_cons] at hnd
    obtain ⟨hghead, hndrest⟩ := hnd
    cases hg : gid_map group with
    | none =>
      rw [hg] at h
      simp only [] at h
      cases hrest : synchronize_storage gid_map rest st with
      | none => rw [hrest] at h; exact absurd h (by simp)
      | some r =>
        obtain ⟨st₂, os₂⟩ := r
        rw [hrest] at h
        simp only [Option.map_some', Option.some.injEq, Prod.mk.injEq] at h
        obtain ⟨hst, -⟩ := h
        subst hst
        rcases List.mem_cons.mp hq with he | hq'
        · rw [he] at hgid
          rw [hgid] at hg
          exact absurd hg (by simp)
        · exact ih st st₂ os₂ hndrest hrest q hq' gid hgid
    | some gid₀ =>
      rw [hg] at h
      simp only [] at h
      cases hsg : sync_group st group gid₀ grants with
      | none => rw [hsg] at h; exact absurd h (by simp)
      | some r =>
        obtain ⟨st', acts⟩ := r
        rw [hsg] at h
        simp only [] at h
        cases hrest : synchronize_storage gid_map rest st' with
        | none => rw [hrest] at h; exact absurd h (by simp)
        | some r₂ =>
          obtain ⟨st₂, os₂⟩ := r₂
          rw [hrest] at h
          simp only [Option.map_some', Option.some.injEq, Prod.mk.injEq] at h
          obtain ⟨hst, -⟩ := h
          subst hst
          rcases List.mem_cons.mp hq with he | hq'
          · subst he
            have hgid₀ : gid = gid₀ := by
              rw [hgid] at hg
              exact Option.some.inj hg.symm ▸ rfl
            subst hgid₀
            obtain ⟨s, hs, hdir, hquota, -, -⟩ :=
              sync_group_post st st' group gid grants acts hsg
            obtain ⟨hd₂, hq₂⟩ := run_frame gid_map rest st' st₂ os₂ hrest
            refine ⟨s, hs, hd₂ _ hdir, ?_⟩
            rw [hq₂ gid ?_]
            · exact hquota
            · intro r hr hgr
              have heq : r.1 = group := hinj r.1 group gid hgr (by
                rw [hgid] at hg; exact hg.symm ▸ hgid)
              have hmem : r.1 ∈ rest.map Prod.fst :=
                List.mem_map_of_mem Prod.fst hr
              rw [heq] at hmem
              exact hghead hmem
          · exact ih st' st₂ os₂ hndrest hrest q hq' gid hgid

/-- A run starting from a state in which every resolvable group already
has its directory and its applied capacity as quota leaves the state
unchanged and issues zero `setQuota` calls. -/
theorem run_steady (gid_map : String → Option Nat) :
    ∀ ggs : List (String × List Grant), ∀ st : FsState,
      (∀ q ∈ ggs, ∀ gid, gid_map q.1 = some gid →
        ∃ s, sum_storage q.2 = some s ∧
          (PROJECT_BASE ++ q.1) ∈ st.dirs ∧
          check_quota_state st gid = some (applied_capacity s)) →
      ∃ os, synchronize_storage gid_map ggs st = some (st, os) ∧
        total_set_quota os = 0 := by
  intro ggs
  induction ggs with
  | nil =>
    intro st _
    exact ⟨[], by rw [synchronize_storage], rfl⟩
  | cons p rest ih =>
    intro st hdone
    obtain ⟨group, grants⟩ := p
    cases hg : gid_map group with
    | none =>
      obtain ⟨os, hrun, hcnt⟩ := ih st (fun q hq => hdone q (List.mem_cons_of_mem _ hq))
      refine ⟨(group, Outcome.groupNotFound) :: os, ?_, ?_⟩
      · rw [synchronize_storage, hg]
        simp only []
        rw [hrun]
        rfl
      · simp [total_set_quota, outcome_set_quota] at hcnt ⊢
        exact hcnt
    | some gid =>
      obtain ⟨s, hs, hdir, hq⟩ :=
        hdone (group, grants) (List.mem_cons_self _ _) gid hg
      have hsg : sync_group st group gid grants
          = some (st, [Action.queryQuota gid]) :=
        sync_group_steady st group gid grants s hs hdir hq
      obtain ⟨os, hrun, hcnt⟩ := ih st (fun q hq => hdone q (List.mem_cons_of_mem _ hq))
      refine ⟨(group, Outcome.reconciled [Action.queryQuota gid]) :: os, ?_, ?_⟩
      · rw [synchronize_storage, hg]
        simp only []
        rw [hsg]
        simp only []
        rw [hrun]
        rfl
      · simp [total_set_quota, outcome_set_quota, count_set_quota,
          is_set_quota] at hcnt ⊢
        exact hcnt

/-! ### Concrete states for witnesses and counterexamples -/

/-- A gid map knowing only teamA (gid 100). -/
def gid_map_ex : String → Option Nat :=
  fun n => if n = "teamA" then some 100 else none

/-- An empty filesystem. -/
def st_ex0 : FsState := { dirs := [], quotas := [] }

/-- The filesystem after provisioning teamA with its 50 GB quota. -/
def st_ex1 : FsState :=
  { dirs := ["/net/pr2/projects/plgrid/teamA"], quotas := [(100, 50)] }

/-- The actions of first-time provisioning of teamA. -/
def acts_ex1 : List Action :=
  [Action.mkdir "/net/pr2/projects/plgrid/teamA",
   Action.chmod "/net/pr2/projects/plgrid/teamA",
   Action.chown "/net/pr2/projects/plgrid/teamA" 100,
   Action.setProject "/net/pr2/projects/plgrid/teamA" 100,
   Action.setQuota 100 50]

/-- teamA's directory exists but its quota (7 GB) drifted from the
desired 50 GB. -/
def st_ex_drift : FsState :=
  { dirs := ["/net/pr2/projects/plgrid/teamA"], quotas := [(100, 7)] }

/-- Claim C2: for a group whose directory exists and whose queried quota
differs from the applied desired capacity in either direction, the
reconciliation issues exactly one `setQuota`, and the value set is the
applied desired capacity. -/
theorem drift_corrected_single_set_quota (st : FsState) (group : String)
    (gid : Nat) (grants : List Grant) (s : Int)
    (hsum : sum_storage grants = some s)
    (hdir : (PROJECT_BASE ++ group) ∈ st.dirs)
    (hneq : check_quota_state st gid ≠ some (applied_capacity s)) :
    sync_group st group gid grants
      = some (set_quota_state st gid (applied_capacity s),
          [Action.queryQuota gid, Action.setQuota gid (applied_capacity s)]) ∧
    count_set_quota [Action.queryQuota gid,
      Action.setQuota gid (applied_capacity s)] = 1 := by
  constructor
  · unfold sync_group
    rw [hsum]
    simp only []
    rw [if_pos hdir, if_pos hneq]
  · rfl

/-- Witness for C2: current quota 7, desired 50, one correcting
`setQuota` to 50. -/
theorem drift_corrected_single_set_quota_witness :
    sync_group st_ex_drift "teamA" 100 [exGrantActive]
      = some (set_quota_state st_ex_drift 100 (applied_capacity 50),
          [Action.queryQuota 100, Action.setQuota 100 (applied_capacity 50)]) ∧
    count_set_quota [Action.queryQuota 100,
      Action.setQuota 100 (applied_capacity 50)] = 1 :=
  drift_corrected_single_set_quota st_ex_drift "teamA" 100 [exGrantActive]
    50 (by decide) (by decide) (by decide)

/-- Claim C3: a group whose directory exists and whose quota equals the
applied capacity triggers no `setQuota`; consequently a second run on
unchanged input (with the OS group database mapping distinct group names
to distinct gids, as a dict built from `getgrall` does) issues zero
`setQuota` calls and leaves the state fixed. -/
theorem reconcile_idempotent (gid_map : String → Option Nat)
    (ggs : List (String × List Grant)) (st st₁ : FsState)
    (os₁ : List (String × Outcome))
    (hinj : ∀ g₁ g₂ gid, gid_map g₁ = some gid → gid_map g₂ = some gid →
      g₁ = g₂)
    (hnd : (ggs.map Prod.fst).Nodup)
    (hrun : synchronize_storage gid_map ggs st = some (st₁, os₁)) :
    (∀ st' group gid grants s, sum_storage grants = some s →
        (PROJECT_BASE ++ group) ∈ st'.dirs →
        check_quota_state st' gid = some (applied_capacity s) →
        sync_group st' group gid grants = some (st', [Action.queryQuota gid])) ∧
    ∃ os₂, synchronize_storage gid_map ggs st₁ = some (st₁, os₂) ∧
      total_set_quota os₂ = 0 := by
  refine ⟨fun st' group gid grants s h1 h2 h3 =>
    sync_group_steady st' group gid grants s h1 h2 h3, ?_⟩
  exact run_steady gid_map ggs st₁
    (fun q hq gid hgid =>
      run_done gid_map hinj ggs st st₁ os₁ hnd hrun q hq gid hgid)

/-- Witness for C3: after provisioning teamA from an empty filesystem,
the second run is a no-op with zero `setQuota` calls. -/
theorem reconcile_idempotent_witness :
    (∀ st' group gid grants s, sum_storage grants = some s →
        (PROJECT_BASE ++ group) ∈ st'.dirs →
        check_quota_state st' gid = some (applied_capacity s) →
        sync_group st' group gid grants = some (st', [Action.queryQuota gid])) ∧
    ∃ os₂, synchronize_storage gid_map_ex [("teamA", [exGrantActive])] st_ex1
        = some (st_ex1, os₂) ∧ total_set_quota os₂ = 0 :=
  reconcile_idempotent gid_map_ex [("teamA", [exGrantActive])] st_ex0 st_ex1
    [("teamA", Outcome.reconciled acts_ex1)]
    (fun g₁ g₂ gid h₁ h₂ => by
      by_cases e₁ : g₁ = "teamA"
      · by_cases e₂ : g₂ = "teamA"
        · rw [e₁, e₂]
        · simp only [gid_map_ex, if_neg e₂] at h₂
          exact Option.noConfusion h₂
      · simp only [gid_map_ex, if_neg e₁] at h₁
        exact Option.noConfusion h₁)
    (by decide)
    (by decide)

/-- Claim C6: a group with no entry in the OS group database is recorded
as `groupNotFound`, the state is passed on untouched, and the remaining
groups are processed exactly as they would be without it. -/
theorem unknown_group_skipped (gid_map : String → Option Nat)
    (group : String) (grants : List Grant)
    (ggs : List (String × List Grant)) (st : FsState)
    (hmiss : gid_map group = none) :
    synchronize_storage gid_map ((group, grants) :: ggs) st
      = (synchronize_storage gid_map ggs st).map
          (fun r => (r.1, (group, Outcome.groupNotFound) :: r.2)) := by
  rw [synchronize_storage, hmiss]

/-- Witness for C6: the unknown group "ghost" is skipped while teamA is
still reconciled. -/
theorem unknown_group_skipped_witness :
    synchronize_storage gid_map_ex
        [("ghost", exGrants), ("teamA", exGrants)] st_ex0
      = (synchronize_storage gid_map_ex [("teamA", exGrants)] st_ex0).map
          (fun r => (r.1, ("ghost", Outcome.groupNotFound) :: r.2)) :=
  unknown_group_skipped gid_map_ex "ghost" exGrants [("teamA", exGrants)]
    st_ex0 (by decide)

/-- Counterexample to claim C9 as stated: with an existing directory and
current quota equal to the desired capacity (both 50), the group's
reconciliation still executes one quota tool command, the `lfs quota`
query, so the number of external tool invocations is 1, not 0. -/
theorem steady_state_zero_invocations_counterexample :
    sync_group st_ex1 "teamA" 100 [exGrantActive]
      = some (st_ex1, [Action.queryQuota 100]) ∧
    ([Action.queryQuota 100].filter is_tool_invocation).length ≠ 0 := by
  exact ⟨by decide, by decide⟩

/-- Claim C9 (amended): in the steady state the reconciliation of the
group performs exactly one external tool invocation — the read-only quota
query — and zero mutating invocations (no `setQuota`, no `setProject`,
and no directory creation). -/
theorem steady_state_one_query_no_mutation (st : FsState) (group : String)
    (gid : Nat) (grants : List Grant) (s : Int)
    (hsum : sum_storage grants = some s)
    (hdir : (PROJECT_BASE ++ group) ∈ st.dirs)
    (hq : check_quota_state st gid = some (applied_capacity s)) :
    sync_group st group gid grants = some (st, [Action.queryQuota gid]) ∧
    ([Action.queryQuota gid].filter is_tool_invocation).length = 1 ∧
    count_set_quota [Action.queryQuota gid] = 0 :=
  ⟨sync_group_steady st group gid grants s hsum hdir hq, rfl, rfl⟩

/-- Witness for C9 (amended) at the 50/50 steady state. -/
theorem steady_state_one_query_no_mutation_witness :
    sync_group st_ex1 "teamA" 100 [exGrantActive]
      = some (st_ex1, [Action.queryQuota 100]) ∧
    ([Action.queryQuota 100].filter is_tool_invocation).length = 1 ∧
    count_set_quota [Action.queryQuota 100] = 0 :=
  steady_state_one_query_no_mutation st_ex1 "teamA" 100 [exGrantActive] 50
    (by decide) (by decide) (by decide)

/-! ### Claim C4: the 1 GB floor -/

theorem sum_allocations_no_storage (allocs : List Allocation)
    (h : ∀ a ∈ allocs, a.resource ≠ "storage") :
    sum_allocations allocs = some 0 := by
  induction allocs with
  | nil => rfl
  | cons a rest ih =>
    rw [sum_allocations,
      if_neg (h a (List.mem_cons_self _ _)),
      ih (fun b hb => h b (List.mem_cons_of_mem _ hb))]

theorem sum_storage_no_storage (grants : List Grant)
    (h : ∀ g ∈ grants, ∀ allocs, g.allocations = some allocs →
      ∀ a ∈ allocs, a.resource ≠ "storage") :
    sum_storage grants = some 0 := by
  induction grants with
  | nil => rfl
  | cons g rest ih =>
    rw [sum_storage]
    have hrest : sum_storage rest = some 0 :=
      ih (fun g' hg' => h g' (List.mem_cons_of_mem _ hg'))
    cases hal : g.allocations with
    | none => exact hrest
    | some allocs =>
      simp only [sum_allocations_no_storage allocs
        (h g (List.mem_cons_self _ _) allocs hal), hrest,
        Option.map_some']
      rfl

/-- Claim C4: the applied desired capacity is `max(1, computed)`; in
particular a group bucket with no active grants (empty) or no storage
allocations computes to 0 and is applied as exactly 1, never 0. -/
theorem applied_capacity_is_floored_max (grants : List Grant)
    (hns : ∀ g ∈ grants, ∀ allocs, g.allocations = some allocs →
      ∀ a ∈ allocs, a.resource ≠ "storage") :
    (∀ s : Int, applied_capacity s = max 1 s) ∧
    sum_storage grants = some 0 ∧
    applied_capacity 0 = 1 := by
  refine ⟨?_, sum_storage_no_storage grants hns, rfl⟩
  intro s
  rw [applied_capacity, max_def]
  split_ifs with h1 h2 h2 <;> omega

/-- An active teamB grant with a cpu allocation and no storage
allocation. -/
def exGrantCpu : Grant :=
  { name := "g3", status := "active", group := "teamB",
    allocations := some [{ resource := "cpu",
                           parameters := [("hours", 100)] }] }

/-- Witness for C4 on a bucket holding only a cpu grant: computed 0,
applied 1. -/
theorem applied_capacity_is_floored_max_witness :
    (∀ s : Int, applied_capacity s = max 1 s) ∧
    sum_storage [exGrantCpu] = some 0 ∧
    applied_capacity 0 = 1 :=
  applied_capacity_is_floored_max [exGrantCpu]
    (by
      intro g hg allocs hal a ha hres
      rw [List.mem_singleton] at hg
      subst hg
      rw [show exGrantCpu.allocations
          = some [⟨"cpu", [("hours", 100)]⟩] from rfl,
        Option.some.injEq] at hal
      subst hal
      rw [List.mem_singleton] at ha
      subst ha
      exact absurd hres (by decide))

/-! ### Claim C5: error surfacing of the quota tool wrappers -/

/-- An environment in which every external command exits with status 1
and an error message on stderr. -/
def env_fail : List String → CmdResult :=
  fun _ => { returncode := 1, stdout := "", stderr := "tool failed" }

/-- Counterexample to claim C5 as stated: under `env_fail` the setquota
tool exits with status 1, yet `set_quota` and `set_project` complete
normally (`Except.ok ()`), whereas the specification's demanded wrapper
surfaces the failure as a `QuotaToolError`.  The non-zero exit status is
silently swallowed; no `QuotaToolError` exists in the program. -/
theorem quota_tool_error_swallowed_counterexample :
    (env_fail (set_quota_cmd 7 5)).returncode ≠ 0 ∧
    code_set_quota env_fail 7 5 = Except.ok () ∧
    code_set_project env_fail "/net/pr2/projects/plgrid/teamA" 7
      = Except.ok () ∧
    spec_set_quota env_fail 7 5
      = Except.error (QuotaToolError.toolFailed (set_quota_cmd 7 5) 1
          "tool failed") := by
  refine ⟨by decide, rfl, rfl, ?_⟩
  rw [spec_set_quota, if_pos (by decide)]
  rfl

/-- Claim C5 (amended): `execute` returns the exit code, stdout and
stderr of the tool, but its callers ignore the exit status entirely:
`set_quota` and `set_project` discard the triple and complete normally
for every environment, and `check_quota`'s result depends only on the
stdout text, never on the exit code. -/
theorem quota_tool_errors_ignored (env : List String → CmdResult)
    (path : String) (gid : Nat) (quota : Int) :
    code_set_quota env gid quota = Except.ok () ∧
    code_set_project env path gid = Except.ok () ∧
    ∀ env₂, (env₂ (check_quota_cmd gid)).stdout
        = (env (check_quota_cmd gid)).stdout →
      check_quota_run env₂ gid = check_quota_run env gid := by
  refine ⟨rfl, rfl, ?_⟩
  intro env₂ h
  show check_quota_parse (env₂ (check_quota_cmd gid)).stdout
    = check_quota_parse (env (check_quota_cmd gid)).stdout
  rw [h]

/-- Witness for C5 (amended) under the failing environment. -/
theorem quota_tool_errors_ignored_witness :
    code_set_quota env_fail 7 5 = Except.ok () ∧
    code_set_project env_fail "/net/pr2/projects/plgrid/teamA" 7
      = Except.ok () ∧
    ∀ env₂, (env₂ (check_quota_cmd 7)).stdout
        = (env_fail (check_quota_cmd 7)).stdout →
      check_quota_run env₂ 7 = check_quota_run env_fail 7 :=
  quota_tool_errors_ignored env_fail "/net/pr2/projects/plgrid/teamA" 7 5

/-! ### Claim C7: fatal data-source failures -/

/-- Claim C7: a 403 response, any other non-200 response, or a JSON
decode failure makes the whole run abort with an error; no successful
result — and therefore no directory creation or quota mutation — is
produced. -/
theorem data_fetch_failure_aborts (status_code : Nat)
    (parsed : Option BursarData) (gid_map : String → Option Nat)
    (st : FsState)
    (hfail : status_code = 403 ∨ status_code ≠ 200 ∨ parsed = none) :
    ∃ e, main_run status_code parsed gid_map st = Except.error e ∧
      ∀ r, main_run status_code parsed gid_map st ≠ Except.ok r := by
  have herr : ∃ e, get_data status_code parsed = Except.error e := by
    by_cases h403 : status_code = 403
    · exact ⟨DataError.unauthorized, by rw [get_data.eq_def, if_pos h403]⟩
    · by_cases h200 : status_code = 200
      · rcases hfail with h | h | h
        · exact absurd h h403
        · exact absurd h200 h
        · refine ⟨DataError.parseFailure, ?_⟩
          rw [get_data.eq_def, if_neg h403, if_neg (by simp [h200]), h]
      · exact ⟨DataError.invalidResponse,
          by rw [get_data.eq_def, if_neg h403, if_pos h200]⟩
  obtain ⟨e, he⟩ := herr
  refine ⟨e, ?_, ?_⟩
  · rw [main_run.eq_def, he]
  · intro r
    rw [main_run.eq_def, he]
    exact fun h => Except.noConfusion h

/-- Witness for C7: a 500 response aborts before any action. -/
theorem data_fetch_failure_aborts_witness :
    ∃ e, main_run 500 (some { groups := ["teamA"], grants := exGrants })
        gid_map_ex st_ex0 = Except.error e ∧
      ∀ r, main_run 500 (some { groups := ["teamA"], grants := exGrants })
        gid_map_ex st_ex0 ≠ Except.ok r :=
  data_fetch_failure_aborts 500
    (some { groups := ["teamA"], grants := exGrants }) gid_map_ex st_ex0
    (Or.inr (Or.inl (by decide)))

/-! ### Claim C8: a storage allocation without a capacity parameter -/

theorem sum_allocations_missing_capacity (allocs : List Allocation)
    (a : Allocation) (ha : a ∈ allocs) (hres : a.resource = "storage")
    (hcap : a.parameters.lookup "capacity" = none) :
    sum_allocations allocs = none := by
  induction allocs with
  | nil => exact absurd ha (by simp)
  | cons b rest ih =>
    rw [sum_allocations]
    rcases List.mem_cons.mp ha with he | ha'
    · subst he
      rw [if_pos hres, hcap]
    · by_cases hb : b.resource = "storage"
      · rw [if_pos hb]
        cases hcb : b.parameters.lookup "capacity" with
        | none => rfl
        | some c => rw [ih ha']; rfl
      · rw [if_neg hb]
        exact ih ha'

/-- Counterexample data for C8: an active grant with a storage allocation
whose parameters lack the `capacity` key. -/
def grantMissingCap : Grant :=
  { name := "g4", status := "active", group := "teamC",
    allocations := some [{ resource := "storage",
                           parameters := [("other", 3)] }] }

/-- Counterexample to claim C8 as stated: a storage allocation without a
`capacity` parameter does not contribute 0 — the aggregation raises a
`KeyError` (modelled `none`), so the sum is not defined at all. -/
theorem missing_capacity_raises_counterexample :
    sum_storage [grantMissingCap] = none ∧
    sum_storage [grantMissingCap] ≠ some 0 :=
  ⟨rfl, by decide⟩

/-- Claim C8 (amended): a storage allocation lacking the `capacity`
parameter makes the whole aggregation fail with a `KeyError` (modelled as
`none`) for every grant list containing it; the allocation is not treated
as contributing 0. -/
theorem missing_capacity_raises (grants : List Grant) (g : Grant)
    (allocs : List Allocation) (a : Allocation)
    (hg : g ∈ grants) (hal : g.allocations = some allocs)
    (ha : a ∈ allocs) (hres : a.resource = "storage")
    (hcap : a.parameters.lookup "capacity" = none) :
    sum_storage grants = none := by
  induction grants with
  | nil => exact absurd hg (by simp)
  | cons g' rest ih =>
    rw [sum_storage]
    rcases List.mem_cons.mp hg with he | hg'
    · subst he
      rw [hal]
      simp only []
      rw [sum_allocations_missing_capacity allocs a ha hres hcap]
    · cases hal' : g'.allocations with
      | none =>
        simp only []
        exact ih hg'
      | some allocs' =>
        simp only []
        cases hca : sum_allocations allocs' with
        | none => rfl
        | some c => rw [ih hg']; rfl

/-- Witness for C8 (amended) on the concrete grant. -/
theorem missing_capacity_raises_witness :
    sum_storage [grantMissingCap] = none :=
  missing_capacity_raises [grantMissingCap] grantMissingCap
    [{ resource := "storage", parameters := [("other", 3)] }]
    { resource := "storage", parameters := [("other", 3)] }
    (by decide) rfl (by decide) rfl rfl

/-! ### Claim C10: substring status matching -/

/-- An "inactive" grant of teamA with a 7 GB storage allocation. -/
def exGrantInactive : Grant :=
  { name := "g5", status := "inactive", group := "teamA",
    allocations := some [{ resource := "storage",
                           parameters := [("capacity", 7)] }] }

/-- Claim C10: grant activity is substring containment, not equality:
any grant whose status contains "active" or "accepted" anywhere is
classified active; in particular a grant with status "inactive" is
treated as active, lands in its group's bucket, and its storage
allocation contributes to the desired capacity. -/
theorem substring_status_counts_as_active (g : Grant)
    (h : ("active".toList <:+: g.status.toList) ∨
         ("accepted".toList <:+: g.status.toList)) :
    is_grant_active g = true ∧
    is_grant_active exGrantInactive = true ∧
    build_group_grants ["teamA"] [exGrantInactive]
      = [("teamA", [exGrantInactive])] ∧
    sum_storage [exGrantInactive] = some 7 := by
  refine ⟨?_, by decide, by decide, by decide⟩
  rw [is_grant_active]
  rcases h with h | h
  · rw [decide_eq_true h, Bool.or_true]
  · rw [decide_eq_true h, Bool.true_or]

/-- Witness for C10: the status "inactive" contains "active". -/
theorem substring_status_counts_as_active_witness :
    is_grant_active exGrantInactive = true ∧
    is_grant_active exGrantInactive = true ∧
    build_group_grants ["teamA"] [exGrantInactive]
      = [("teamA", [exGrantInactive])] ∧
    sum_storage [exGrantInactive] = some 7 :=
  substring_status_counts_as_active exGrantInactive (Or.inl (by decide))
